import Mathlib

/-!
Shallow embedding of `testrail_mcp/testrail_client.py` (class `TestRailClient`):
URL construction, query-parameter encoding, Basic-Auth header construction,
request dispatch and HTTP error surfacing, plus the endpoint wrappers the
claims mention (`get_cases`, `get_sections`).

External library behaviour the source relies on is modelled at the byte/string
level: `urllib.parse.urlencode` (percent-encoding via `quote_plus`),
`base64.b64encode`, UTF-8 encoding of Python `str`, Python `str()`/`repr()`
rendering of the JSON-like values that appear in f-strings, and the
`requests` response object (status code, body text, and the result of
`.json()`, which the transport supplies as an oracle).
-/

namespace TestRail

/-! ## Generic string helpers (decidable substring / suffix tests) -/

/-- Boolean test: is `t` a prefix of `s` (on character lists)? -/
def isPrefixB : List Char → List Char → Bool
  | [], _ => true
  | _ :: _, [] => false
  | a :: t, b :: s => a == b && isPrefixB t s

/-- Boolean test: does `t` occur as a contiguous substring of `s`? -/
def isInfixB (t : List Char) : List Char → Bool
  | [] => t.isEmpty
  | c :: s => isPrefixB t (c :: s) || isInfixB t s

/-- Containment `containsStr s t`: the string `t` occurs contiguously inside `s`. -/
def containsStr (s t : String) : Prop := isInfixB t.data s.data = true

instance (s t : String) : Decidable (containsStr s t) := by
  unfold containsStr; infer_instance

/-- Python's `str.upper` (per-character, as for the ASCII method names used
here). -/
def strUpper (s : String) : String := String.mk (s.data.map Char.toUpper)

/-- Python's `str.endswith`: `t` is a suffix of `s`. -/
def strEndsWith (s t : String) : Bool := t.data.isSuffixOf s.data

/-! ## JSON-like Python values -/

/-- The JSON-compatible Python values that flow through the client:
`None`, booleans, integers, strings, lists and (insertion-ordered) dicts.
(JSON floats never appear in the claims and are left out of the model.) -/
inductive JVal where
  | null : JVal
  | bool : Bool → JVal
  | num : Int → JVal
  | str : String → JVal
  | arr : List JVal → JVal
  | obj : List (String × JVal) → JVal
  deriving Repr

/-- A Python `Dict[str, ...]`, insertion ordered. -/
abbrev PDict := List (String × JVal)

mutual

/-- Python `repr()` of a JSON-like value (as rendered inside f-strings for
dict/list containers; strings get single quotes). -/
def pyRepr : JVal → String
  | .null => "None"
  | .bool true => "True"
  | .bool false => "False"
  | .num n => toString n
  | .str s => "'" ++ s ++ "'"
  | .arr xs => "[" ++ pyReprList xs ++ "]"
  | .obj fs => "\x7b" ++ pyReprObj fs ++ "\x7d"

/-- Comma-separated `repr()`s of list elements. -/
def pyReprList : List JVal → String
  | [] => ""
  | [x] => pyRepr x
  | x :: y :: xs => pyRepr x ++ ", " ++ pyReprList (y :: xs)

/-- Comma-separated `'key': repr(value)` pairs of a dict. -/
def pyReprObj : List (String × JVal) → String
  | [] => ""
  | [(k, v)] => "'" ++ k ++ "': " ++ pyRepr v
  | (k, v) :: f :: fs => "'" ++ k ++ "': " ++ pyRepr v ++ ", " ++ pyReprObj (f :: fs)

end

/-- Python `str()` of a JSON-like value: like `repr()` except that a
top-level string is rendered without quotes. -/
def pyStr : JVal → String
  | .str s => s
  | v => pyRepr v

mutual

/-- Model of `json.dumps` with default separators. -/
def jsonDumps : JVal → String
  | .null => "null"
  | .bool true => "true"
  | .bool false => "false"
  | .num n => toString n
  | .str s => "\"" ++ s ++ "\""
  | .arr xs => "[" ++ jsonDumpsList xs ++ "]"
  | .obj fs => "\x7b" ++ jsonDumpsObj fs ++ "\x7d"

/-- Rendering by `json.dumps` of the elements of a list, comma separated. -/
def jsonDumpsList : List JVal → String
  | [] => ""
  | [x] => jsonDumps x
  | x :: y :: xs => jsonDumps x ++ ", " ++ jsonDumpsList (y :: xs)

/-- Rendering by `json.dumps` of the fields of an object, comma separated. -/
def jsonDumpsObj : List (String × JVal) → String
  | [] => ""
  | [(k, v)] => "\"" ++ k ++ "\": " ++ jsonDumps v
  | (k, v) :: f :: fs => "\"" ++ k ++ "\": " ++ jsonDumps v ++ ", " ++ jsonDumpsObj (f :: fs)

end

/-! ## UTF-8 encoding and `urllib.parse.urlencode` -/

/-- UTF-8 encoding of one character, as a list of byte values (< 256). -/
def utf8Bytes (c : Char) : List Nat :=
  let n := c.toNat
  if n < 0x80 then [n]
  else if n < 0x800 then [0xC0 + n / 64, 0x80 + n % 64]
  else if n < 0x10000 then [0xE0 + n / 4096, 0x80 + n / 64 % 64, 0x80 + n % 64]
  else [0xF0 + n / 262144, 0x80 + n / 4096 % 64, 0x80 + n / 64 % 64, 0x80 + n % 64]

/-- UTF-8 encoding of a Python `str` (the bytes of `bytes(s, 'utf-8')`). -/
def utf8Encode (s : String) : List Nat := s.data.flatMap utf8Bytes

/-- Upper-case hexadecimal digit for `x < 16`. -/
def hexDigit (x : Nat) : Char :=
  if x < 10 then Char.ofNat (48 + x) else Char.ofNat (55 + x)

/-- The `quote_plus` treatment of a single character: alphanumerics and
`-_.~` pass through, space becomes `+`, everything else is
percent-encoded byte-wise (upper-case hex), as `urllib.parse.quote_plus` does. -/
def quotePlusChar (c : Char) : String :=
  if c.isAlphanum || c == '-' || c == '_' || c == '.' || c == '~' then
    String.singleton c
  else if c == ' ' then "+"
  else
    String.join ((utf8Bytes c).map fun b =>
      String.mk ['%', hexDigit (b / 16), hexDigit (b % 16)])

/-- Model of `urllib.parse.quote_plus` on a whole string. -/
def quotePlus (s : String) : String := String.join (s.data.map quotePlusChar)

/-- Model of `urllib.parse.urlencode`: `k=v` pairs joined with `&`, keys and the
`str()` of values passed through `quote_plus`. -/
def urlencodePy (ps : PDict) : String :=
  String.intercalate "&"
    (ps.map fun kv => quotePlus kv.1 ++ "=" ++ quotePlus (pyStr kv.2))

/-! ## Base64 (`base64.b64encode`) -/

/-- The standard Base64 alphabet. -/
def b64Alphabet : List Char :=
  "ABCDEFGHIJKLMNOPQRSTUVWXYZabcdefghijklmnopqrstuvwxyz0123456789+/".data

/-- Character for a sextet value (< 64). -/
def sextetToChar (n : Nat) : Char := b64Alphabet.getD n 'A'

/-- Inverse lookup into the Base64 alphabet. -/
def charToSextet (c : Char) : Option Nat := b64Alphabet.findIdx? (· == c)

/-- Model of `base64.b64encode` on a byte list, producing the padded character list. -/
def b64EncodeChunks : List Nat → List Char
  | [] => []
  | [b0] => [sextetToChar (b0 / 4), sextetToChar (b0 % 4 * 16), '=', '=']
  | [b0, b1] =>
    [sextetToChar (b0 / 4), sextetToChar (b0 % 4 * 16 + b1 / 16),
     sextetToChar (b1 % 16 * 4), '=']
  | b0 :: b1 :: b2 :: rest =>
    sextetToChar (b0 / 4) :: sextetToChar (b0 % 4 * 16 + b1 / 16) ::
    sextetToChar (b1 % 16 * 4 + b2 / 64) :: sextetToChar (b2 % 64) ::
    b64EncodeChunks rest

/-- Base64 decoding of a padded character list back to bytes: four characters
per chunk, with `=`-padding allowed only in the final chunk. -/
def b64DecodeChunks : List Char → Option (List Nat)
  | [] => some []
  | c0 :: c1 :: c2 :: c3 :: rest =>
    match charToSextet c0, charToSextet c1 with
    | some s0, some s1 =>
      if c2 = '=' ∧ c3 = '=' ∧ rest = [] then
        some [s0 * 4 + s1 / 16]
      else
        match charToSextet c2 with
        | some s2 =>
          if c3 = '=' ∧ rest = [] then
            some [s0 * 4 + s1 / 16, s1 % 16 * 16 + s2 / 4]
          else
            match charToSextet c3, b64DecodeChunks rest with
            | some s3, some tail =>
              some ((s0 * 4 + s1 / 16) :: (s1 % 16 * 16 + s2 / 4) ::
                (s2 % 4 * 64 + s3) :: tail)
            | _, _ => none
        | none => none
    | _, _ => none
  | _ => none

/-- Continuation of a 2-byte UTF-8 sequence headed by `b0`. -/
def utf8Step2 (b0 : Nat) : List Nat → Option (Char × List Nat)
  | b1 :: rest =>
    if (0x80 ≤ b1 ∧ b1 < 0xC0) ∧ 0x80 ≤ (b0 - 0xC0) * 64 + (b1 - 0x80) then
      some (Char.ofNat ((b0 - 0xC0) * 64 + (b1 - 0x80)), rest)
    else none
  | [] => none

/-- Continuation of a 3-byte UTF-8 sequence headed by `b0` (overlong forms
and surrogates rejected). -/
def utf8Step3 (b0 : Nat) : List Nat → Option (Char × List Nat)
  | b1 :: b2 :: rest =>
    if (0x80 ≤ b1 ∧ b1 < 0xC0) ∧ (0x80 ≤ b2 ∧ b2 < 0xC0) ∧
        0x800 ≤ (b0 - 0xE0) * 4096 + (b1 - 0x80) * 64 + (b2 - 0x80) ∧
        ((b0 - 0xE0) * 4096 + (b1 - 0x80) * 64 + (b2 - 0x80) < 0xD800 ∨
          0xE000 ≤ (b0 - 0xE0) * 4096 + (b1 - 0x80) * 64 + (b2 - 0x80)) then
      some (Char.ofNat ((b0 - 0xE0) * 4096 + (b1 - 0x80) * 64 + (b2 - 0x80)), rest)
    else none
  | _ => none

/-- Continuation of a 4-byte UTF-8 sequence headed by `b0` (values past
U+10FFFF rejected). -/
def utf8Step4 (b0 : Nat) : List Nat → Option (Char × List Nat)
  | b1 :: b2 :: b3 :: rest =>
    if (0x80 ≤ b1 ∧ b1 < 0xC0) ∧ (0x80 ≤ b2 ∧ b2 < 0xC0) ∧ (0x80 ≤ b3 ∧ b3 < 0xC0) ∧
        0x10000 ≤ (b0 - 0xF0) * 262144 + (b1 - 0x80) * 4096 + (b2 - 0x80) * 64 + (b3 - 0x80) ∧
        (b0 - 0xF0) * 262144 + (b1 - 0x80) * 4096 + (b2 - 0x80) * 64 + (b3 - 0x80) < 0x110000 then
      some (Char.ofNat ((b0 - 0xF0) * 262144 + (b1 - 0x80) * 4096 + (b2 - 0x80) * 64 + (b3 - 0x80)),
        rest)
    else none
  | _ => none

/-- Decode one UTF-8 character from the head of a byte stream (strict:
stray continuation bytes and byte values ≥ 0xF8 are rejected). -/
def utf8DecodeStep : List Nat → Option (Char × List Nat)
  | [] => none
  | b0 :: rest =>
    if b0 < 0x80 then some (Char.ofNat b0, rest)
    else if b0 < 0xC0 then none
    else if b0 < 0xE0 then utf8Step2 b0 rest
    else if b0 < 0xF0 then utf8Step3 b0 rest
    else if b0 < 0xF8 then utf8Step4 b0 rest
    else none

/-- Decoding of a UTF-8 byte stream, one character at a time; the fuel
bounds the number of characters produced (the decode entry point supplies
the byte count, which always suffices since every character consumes at
least one byte). -/
def utf8DecodeAux : Nat → List Nat → Option (List Char)
  | _, [] => some []
  | 0, _ :: _ => none
  | fuel + 1, b0 :: rest =>
    match utf8DecodeStep (b0 :: rest) with
    | some (c, rest') => (utf8DecodeAux fuel rest').map (c :: ·)
    | none => none

/-- Decoding of a whole UTF-8 byte stream back to characters, as Python's
`bytes.decode('utf-8')` does. -/
def utf8DecodeList (l : List Nat) : Option (List Char) :=
  utf8DecodeAux l.length l

/-- Model of `bytes.decode('utf-8')` on a byte list. -/
def utf8Decode (l : List Nat) : Option String :=
  (utf8DecodeList l).map fun cs => String.mk cs

/-! ## The client: construction (`TestRailClient.__init__`) -/

/-- The fixed API prefix appended to the normalized base URL. -/
def apiSuffix : String := "index.php?/api/v2/"

/-- The base-URL normalization performed by `__init__`: ensure the base URL
ends with a slash (`if not base_url.endswith('/'): base_url += '/'`). -/
def normalizeBase (base_url : String) : String :=
  if strEndsWith base_url "/" then base_url else base_url ++ "/"

/-- The state `__init__` stores on the instance: credentials, the fully
prefixed base URL, and the session's `Authorization` header value. -/
structure TestRailClient where
  username : String
  api_key : String
  base_url : String
  authHeader : String
  deriving Repr

/-- Constructor `TestRailClient.__init__`: normalize the base URL, append the API prefix,
and compute the Basic-Auth header from the Base64 of the UTF-8 bytes of
`"username:api_key"`. -/
def TestRailClient.init (base_url username api_key : String) : TestRailClient :=
  { username := username
    api_key := api_key
    base_url := normalizeBase base_url ++ apiSuffix
    authHeader :=
      "Basic " ++ String.mk (b64EncodeChunks (utf8Encode (username ++ ":" ++ api_key))) }

/-! ## The dispatcher (`TestRailClient._send_request`) -/

/-- What the `requests` session observes of a dispatched request. -/
structure SentRequest where
  httpMethod : String
  url : String
  body : Option String
  deriving Repr

/-- What the client observes of an HTTP response: the status code, the body
text, and the result of `response.json()` (`none` when decoding raises).
An empty body never decodes, so well-formed transports pair `content = ""`
with `jsonValue = none`; no proof below relies on that. -/
structure HttpResponse where
  status_code : Nat
  content : String
  jsonValue : Option JVal

/-- The observable outcome of `_send_request`: the `ValueError` for an
unsupported method (raised before any request is sent), the `Exception`
raised for status ≥ 300 (carrying the message), the `json.JSONDecodeError`
escaping from `response.json()` on an undecodable success body, or the
decoded result. -/
inductive SendOutcome where
  | valueError : String → SendOutcome
  | apiError : SentRequest → String → SendOutcome
  | decodeError : SentRequest → SendOutcome
  | ok : SentRequest → JVal → SendOutcome
  deriving Repr

/-- Line 62: `filtered_params = \x7bk: v for k, v in params.items() if v is not None\x7d`. -/
def filterNonNull (ps : PDict) : PDict :=
  ps.filter fun kv => match kv.2 with | .null => false | _ => true

/-- Lines 57–67: `url = self.base_url + uri`, then for truthy `params` and
method GET, drop `None`-valued entries, and if any remain append the
url-encoded block with `&` when the URL already contains `?`, else `?`. -/
def buildUrl (base_url uri method : String) (params : Option PDict) : String :=
  match params with
  | none => base_url ++ uri
  | some ps =>
    if ps.isEmpty = false ∧ strUpper method = "GET" then
      if (filterNonNull ps).isEmpty = false then
        base_url ++ uri ++ (if '?' ∈ (base_url ++ uri).data then "&" else "?") ++
          urlencodePy (filterNonNull ps)
      else base_url ++ uri
    else base_url ++ uri

/-- The request body per branch of lines 69–76: GET/DELETE send none;
POST/PUT send `json.dumps(data) if data else None`. -/
def buildBody (method : String) (data : Option PDict) : Option String :=
  if strUpper method = "POST" ∨ strUpper method = "PUT" then
    match data with
    | some d => if d.isEmpty = false then some (jsonDumps (.obj d)) else none
    | none => none
  else none

/-- Lines 81–84: `error = response.json()`, falling back to `response.text`
when decoding raises. -/
def errorBodyText (r : HttpResponse) : String :=
  match r.jsonValue with
  | some v => pyStr v
  | none => r.content

/-- Lines 86–87: the `[Original params: ...]` note, added only for truthy
`params`. -/
def paramsNote : Option PDict → String
  | some ps =>
    if ps.isEmpty = false then " [Original params: " ++ pyRepr (.obj ps) ++ "]" else ""
  | none => ""

/-- The f-string of line 88 together with lines 85–87: the error message for
a failing response, from the decoded-or-raw error body, the constructed URL
and (for truthy `params`) the original params. -/
def errorMessage (r : HttpResponse) (url : String) (params : Option PDict) : String :=
  "TestRail API returned HTTP " ++ toString r.status_code ++ ": " ++ errorBodyText r ++
    " [URL: " ++ url ++ "]" ++ paramsNote params

/-- The request a supported-method dispatch hands to the session. -/
def sentRequestOf (c : TestRailClient) (method uri : String)
    (data params : Option PDict) : SentRequest :=
  { httpMethod := strUpper method
    url := buildUrl c.base_url uri method params
    body := buildBody method data }

/-- Lines 80–90: raise on status ≥ 300, otherwise decode the body
(an empty body yields the empty dict, an undecodable one raises). -/
def handleResponse (sent : SentRequest) (params : Option PDict)
    (r : HttpResponse) : SendOutcome :=
  if 300 ≤ r.status_code then
    .apiError sent (errorMessage r sent.url params)
  else if r.content ≠ "" then
    match r.jsonValue with
    | some v => .ok sent v
    | none => .decodeError sent
  else .ok sent (.obj [])

/-- Dispatcher `TestRailClient._send_request`. The transport is an oracle `respond`
mapping the sent request to the HTTP response; an unsupported method raises
before `respond` is ever consulted. -/
def sendRequest (c : TestRailClient) (method uri : String)
    (data params : Option PDict) (respond : SentRequest → HttpResponse) :
    SendOutcome :=
  if strUpper method = "GET" ∨ strUpper method = "POST" ∨
      strUpper method = "PUT" ∨ strUpper method = "DELETE" then
    handleResponse (sentRequestOf c method uri data params) params
      (respond (sentRequestOf c method uri data params))
  else
    .valueError ("Unsupported HTTP method: " ++ method)

/-- The request a non-`valueError` outcome carries. -/
def SendOutcome.sentOf : SendOutcome → Option SentRequest
  | .valueError _ => none
  | .apiError s _ => some s
  | .decodeError s => some s
  | .ok s _ => some s

/-- The URL of the request the outcome carries, if any. -/
def SendOutcome.urlOf (o : SendOutcome) : Option String := o.sentOf.map (·.url)

/-- The decoded result of a successful outcome. -/
def SendOutcome.resultOf : SendOutcome → Option JVal
  | .ok _ v => some v
  | _ => none

/-- The message of a raised status-≥-300 error, if that is the outcome. -/
def SendOutcome.apiErrorMsg : SendOutcome → Option String
  | .apiError _ msg => some msg
  | _ => none

/-- Does the outcome represent a raised error (of any of the three kinds)? -/
def SendOutcome.isError : SendOutcome → Bool
  | .ok _ _ => false
  | _ => true

/-! ## Endpoint wrappers the claims mention -/

/-- Wrapper `TestRailClient.get_cases`: build `params` from the optional `suite_id`
and dispatch a GET to `get_cases/{project_id}`. -/
def TestRailClient.get_cases (c : TestRailClient) (project_id : Int)
    (suite_id : Option Int) (respond : SentRequest → HttpResponse) : SendOutcome :=
  let params : PDict := match suite_id with
    | some sid => [("suite_id", .num sid)]
    | none => []
  sendRequest c "GET" ("get_cases/" ++ toString project_id) none (some params) respond

/-- Python dict assignment `d[k] = v`: replace the value at an existing key
in place, otherwise append the new entry. -/
def dictSet (d : PDict) (k : String) (v : JVal) : PDict :=
  if d.any (fun kv => kv.1 == k) then
    d.map fun kv => if kv.1 == k then (k, v) else kv
  else d ++ [(k, v)]

/-- The query parameters `get_sections` dispatches:
`query_params = params or \x7b\x7d`, then `query_params['suite_id'] = suite_id`
when `suite_id` is not `None`. (`params or \x7b\x7d` yields a fresh empty dict
when `params` is `None` or empty; either way the contents are the same.) -/
def get_sections_params (suite_id : Option Int) (params : Option PDict) : PDict :=
  let query_params := match params with
    | some ps => ps
    | none => []
  match suite_id with
  | some sid => dictSet query_params "suite_id" (.num sid)
  | none => query_params

/-- Wrapper `TestRailClient.get_sections`: merge the optional suite filter into the
caller's params and dispatch a GET to `get_sections/{project_id}`. -/
def TestRailClient.get_sections (c : TestRailClient) (project_id : Int)
    (suite_id : Option Int) (params : Option PDict)
    (respond : SentRequest → HttpResponse) : SendOutcome :=
  sendRequest c "GET" ("get_sections/" ++ toString project_id) none
    (some (get_sections_params suite_id params)) respond

/-- Python `d.get(k)`: the value stored at the first entry with key `k`. -/
def dictGet (k : String) : PDict → Option JVal
  | [] => none
  | (k', v) :: d => if k = k' then some v else dictGet k d

/-! ## Shared lemmas -/

theorem isPrefixB_self_append (t b : List Char) : isPrefixB t (t ++ b) = true := by
  induction t with
  | nil => rfl
  | cons a t ih => simp [isPrefixB, ih]

theorem isInfixB_append (a t b : List Char) : isInfixB t (a ++ t ++ b) = true := by
  induction a with
  | nil =>
    cases t with
    | nil => cases b <;> simp [isInfixB, isPrefixB, List.isEmpty]
    | cons c t' =>
      simp only [List.nil_append, List.cons_append, isInfixB, Bool.or_eq_true]
      exact Or.inl (by simpa using isPrefixB_self_append (c :: t') b)
  | cons x a ih =>
    have h : isInfixB t (x :: (a ++ t ++ b)) =
        (isPrefixB t (x :: (a ++ t ++ b)) || isInfixB t (a ++ t ++ b)) := rfl
    simp only [List.cons_append, h, ih, Bool.or_true]

/-- The `Prop`-level consequence used to discharge containment goals. -/
theorem containsStr_of_eq {s t a b : String} (h : s = a ++ t ++ b) :
    containsStr s t := by
  subst h
  show isInfixB t.data (a ++ t ++ b).data = true
  rw [String.data_append, String.data_append]
  exact isInfixB_append a.data t.data b.data

theorem isPrefixB_refl (t : List Char) : isPrefixB t t = true := by
  induction t with
  | nil => rfl
  | cons a t ih => simp [isPrefixB, ih]

theorem isInfixB_nil_left (l : List Char) : isInfixB [] l = true := by
  cases l <;> simp [isInfixB, isPrefixB, List.isEmpty]

theorem isPrefixB_extend (t s y : List Char) (h : isPrefixB t s = true) :
    isPrefixB t (s ++ y) = true := by
  induction t generalizing s with
  | nil => rfl
  | cons a t ih =>
    cases s with
    | nil => exact Bool.noConfusion h
    | cons b s =>
      simp only [isPrefixB, Bool.and_eq_true] at h
      simp only [List.cons_append, isPrefixB, Bool.and_eq_true]
      exact ⟨h.1, ih s h.2⟩

theorem isInfixB_extend_right (t s y : List Char) (h : isInfixB t s = true) :
    isInfixB t (s ++ y) = true := by
  induction s with
  | nil =>
    have ht : t = [] := by
      cases t with
      | nil => rfl
      | cons a t => exact Bool.noConfusion h
    rw [ht]
    exact isInfixB_nil_left y
  | cons c s ih =>
    have h' : (isPrefixB t (c :: s) || isInfixB t s) = true := h
    rw [Bool.or_eq_true] at h'
    show (isPrefixB t (c :: (s ++ y)) || isInfixB t (s ++ y)) = true
    rw [Bool.or_eq_true]
    rcases h' with h' | h'
    · exact Or.inl (by simpa using isPrefixB_extend t (c :: s) y h')
    · exact Or.inr (ih h')

theorem isInfixB_extend_left (t s y : List Char) (h : isInfixB t y = true) :
    isInfixB t (s ++ y) = true := by
  induction s with
  | nil => exact h
  | cons c s ih =>
    show (isPrefixB t (c :: (s ++ y)) || isInfixB t (s ++ y)) = true
    rw [Bool.or_eq_true]
    exact Or.inr ih

theorem containsStr_refl (s : String) : containsStr s s := by
  show isInfixB s.data s.data = true
  cases h : s.data with
  | nil => rfl
  | cons c l =>
    show (isPrefixB (c :: l) (c :: l) || isInfixB (c :: l) l) = true
    rw [Bool.or_eq_true]
    exact Or.inl (isPrefixB_refl (c :: l))

theorem containsStr_appendl {y t : String} (x : String) (h : containsStr y t) :
    containsStr (x ++ y) t := by
  show isInfixB t.data (x ++ y).data = true
  rw [String.data_append]
  exact isInfixB_extend_left t.data x.data y.data h

theorem containsStr_appendr {x t : String} (y : String) (h : containsStr x t) :
    containsStr (x ++ y) t := by
  show isInfixB t.data (x ++ y).data = true
  rw [String.data_append]
  exact isInfixB_extend_right t.data x.data y.data h


theorem strEndsWith_iff {s t : String} : strEndsWith s t = true ↔ t.data <:+ s.data :=
  List.isSuffixOf_iff_suffix

/-- Normalization always leaves a trailing slash. -/
theorem normalizeBase_endsWith_slash (b : String) :
    strEndsWith (normalizeBase b) "/" = true := by
  unfold normalizeBase
  by_cases h : strEndsWith b "/" = true
  · rw [if_pos h]; exact h
  · rw [if_neg h, strEndsWith_iff, String.data_append]
    exact List.suffix_append _ _

/-- Normalization introduces no double slash unless the base already had one. -/
theorem normalizeBase_no_double_slash (b : String)
    (hb : strEndsWith b "//" = false) :
    strEndsWith (normalizeBase b) "//" = false := by
  unfold normalizeBase
  by_cases h : strEndsWith b "/" = true
  · rw [if_pos h]; exact hb
  · rw [if_neg h]
    by_contra hc
    rw [Bool.not_eq_false, strEndsWith_iff, String.data_append] at hc
    obtain ⟨p, hp⟩ := hc
    have e : ("//" : String).data = ("/" : String).data ++ ("/" : String).data := rfl
    rw [e, ← List.append_assoc] at hp
    exact h (strEndsWith_iff.mpr ⟨p, List.append_cancel_right hp⟩)

/-- The constructed base URL always contains `?` (from `index.php?`). -/
theorem qmark_mem_init_base (b u k : String) :
    '?' ∈ (TestRailClient.init b u k).base_url.data := by
  show '?' ∈ (normalizeBase b ++ apiSuffix).data
  rw [String.data_append]
  exact List.mem_append.mpr (Or.inr (by decide))

theorem qmark_mem_init_url (b u k uri : String) :
    '?' ∈ ((TestRailClient.init b u k).base_url ++ uri).data := by
  rw [String.data_append]
  exact List.mem_append.mpr (Or.inl (qmark_mem_init_base b u k))

/-- Evaluation of `buildUrl` on a GET with truthy params and a nonempty filtered dict. -/
theorem buildUrl_get_truthy (base_url uri method : String) (ps : PDict)
    (hm : strUpper method = "GET") (hps : ps.isEmpty = false)
    (hf : (filterNonNull ps).isEmpty = false) :
    buildUrl base_url uri method (some ps) =
      base_url ++ uri ++ (if '?' ∈ (base_url ++ uri).data then "&" else "?") ++
        urlencodePy (filterNonNull ps) := by
  have h1 : buildUrl base_url uri method (some ps) =
      if ps.isEmpty = false ∧ strUpper method = "GET" then
        if (filterNonNull ps).isEmpty = false then
          base_url ++ uri ++ (if '?' ∈ (base_url ++ uri).data then "&" else "?") ++
            urlencodePy (filterNonNull ps)
        else base_url ++ uri
      else base_url ++ uri := rfl
  rw [h1, if_pos (⟨hps, hm⟩ : ps.isEmpty = false ∧ strUpper method = "GET"), if_pos hf]

/-! ## C3: exactly one slash before the API prefix -/

/-- C3, counterexample: for the base URL `"a//"` (which ends with a
trailing slash) the constructed base URL is `"a//index.php?/api/v2/"`: it
contains a double slash immediately before the fixed prefix, so the claim
that every constructed URL has exactly one `/` there fails. -/
theorem init_double_slash_cex :
    (TestRailClient.init "a//" "u" "k").base_url = "a//index.php?/api/v2/"
    ∧ containsStr (TestRailClient.init "a//" "u" "k").base_url "//index.php?/api/v2/" := by
  constructor
  · rfl
  · decide

/-- C3 (amended): for every base URL that does not already end in a
double slash, every request URL the client constructs decomposes as the
normalized base followed by `index.php?/api/v2/` and the URI suffix, where
the normalized base ends in exactly one `/` (it ends with `/` but not with
`//`); in particular no missing-slash URI is ever produced, and no
double-slash URI beyond one already present in the caller's base URL. -/
theorem init_base_url_single_slash (b u k uri : String)
    (hb : strEndsWith b "//" = false) :
    (TestRailClient.init b u k).base_url ++ uri =
      normalizeBase b ++ (apiSuffix ++ uri)
    ∧ strEndsWith (normalizeBase b) "/" = true
    ∧ strEndsWith (normalizeBase b) "//" = false :=
  ⟨String.append_assoc _ _ _, normalizeBase_endsWith_slash b,
    normalizeBase_no_double_slash b hb⟩

/-- Witness for C3 at a concrete base URL without a trailing slash. -/
theorem init_base_url_single_slash_witness :
    strEndsWith "https://example.testrail.io" "//" = false
    ∧ ((TestRailClient.init "https://example.testrail.io" "alice" "k1").base_url ++ "get_cases/3" =
        normalizeBase "https://example.testrail.io" ++ (apiSuffix ++ "get_cases/3")
      ∧ strEndsWith (normalizeBase "https://example.testrail.io") "/" = true
      ∧ strEndsWith (normalizeBase "https://example.testrail.io") "//" = false) :=
  ⟨by decide,
    init_base_url_single_slash "https://example.testrail.io" "alice" "k1" "get_cases/3"
      (by decide)⟩

/-! ## C2: the query-block separator -/

/-- C2, counterexample: the URI suffix `"get_cases/3"` contains no `?`,
yet the dispatcher appends the parameter block with `&`, not `?`: the
constructed URL is `...get_cases/3&a=1` and contains no `?a=1`. The
separator is chosen by looking at the full URL (whose base always contains
`?` from `index.php?`), not at the caller's URI suffix. -/
theorem buildUrl_separator_cex :
    ¬ containsStr "get_cases/3" "?"
    ∧ buildUrl (TestRailClient.init "https://example.testrail.io" "u" "k").base_url
        "get_cases/3" "GET" (some [("a", JVal.num 1)]) =
      "https://example.testrail.io/index.php?/api/v2/get_cases/3&a=1"
    ∧ ¬ containsStr "https://example.testrail.io/index.php?/api/v2/get_cases/3&a=1" "?a=1" :=
  ⟨by decide, rfl, by decide⟩

/-- C2 (amended): the encoded parameter block is appended with `&`
whenever the full URL (normalized base + URI suffix) contains `?`, and with
`?` otherwise; since the normalized base always ends in `index.php?/api/v2/`,
every dispatch from a constructed client uses `&`, regardless of whether the
caller's URI suffix contains a `?`. -/
theorem buildUrl_separator_always_amp (b u k uri method : String) (ps : PDict)
    (hm : strUpper method = "GET") (hps : ps.isEmpty = false)
    (hf : (filterNonNull ps).isEmpty = false) :
    buildUrl (TestRailClient.init b u k).base_url uri method (some ps) =
      (TestRailClient.init b u k).base_url ++ uri ++ "&" ++
        urlencodePy (filterNonNull ps) := by
  rw [buildUrl_get_truthy _ _ _ _ hm hps hf, if_pos (qmark_mem_init_url b u k uri)]

/-- Witness for C2 at a URI suffix that already carries `?soft=1`: the
result contains `...?soft=1&a=1`. -/
theorem buildUrl_separator_always_amp_witness :
    strUpper "GET" = "GET"
    ∧ ([("a", JVal.num 1)] : PDict).isEmpty = false
    ∧ (filterNonNull [("a", JVal.num 1)]).isEmpty = false
    ∧ buildUrl (TestRailClient.init "https://example.testrail.io" "u" "k").base_url
        "delete_section/5?soft=1" "GET" (some [("a", JVal.num 1)]) =
      (TestRailClient.init "https://example.testrail.io" "u" "k").base_url ++
        "delete_section/5?soft=1" ++ "&" ++ urlencodePy (filterNonNull [("a", JVal.num 1)]) :=
  ⟨rfl, rfl, rfl,
    buildUrl_separator_always_amp "https://example.testrail.io" "u" "k"
      "delete_section/5?soft=1" "GET" [("a", JVal.num 1)] rfl rfl rfl⟩

/-! ## C4: `None`-valued query parameters are dropped -/

/-- C4: on a GET dispatch with a (truthy) params mapping, the entries
whose value is `None` are dropped before encoding — the appended block is
exactly the url-encoding of the `None`-free remainder, which contains no
`None`-valued entry — and in particular
`params = \x7b"suite_id": None, "x": 5\x7d` yields a URL containing `x=5`
and not containing `suite_id`. -/
theorem buildUrl_drops_none_params (base_url uri method : String) (ps : PDict)
    (hm : strUpper method = "GET") (hps : ps.isEmpty = false)
    (hf : (filterNonNull ps).isEmpty = false) :
    (∀ kv ∈ filterNonNull ps, kv.2 ≠ JVal.null)
    ∧ buildUrl base_url uri method (some ps) =
        base_url ++ uri ++ (if '?' ∈ (base_url ++ uri).data then "&" else "?") ++
          urlencodePy (filterNonNull ps)
    ∧ containsStr (buildUrl (TestRailClient.init "https://example.testrail.io" "u" "k").base_url
        "get_cases/1" "GET" (some [("suite_id", JVal.null), ("x", JVal.num 5)])) "x=5"
    ∧ ¬ containsStr (buildUrl (TestRailClient.init "https://example.testrail.io" "u" "k").base_url
        "get_cases/1" "GET" (some [("suite_id", JVal.null), ("x", JVal.num 5)])) "suite_id" := by
  refine ⟨?_, buildUrl_get_truthy _ _ _ _ hm hps hf, by decide, by decide⟩
  intro kv hkv hnull
  have h := List.of_mem_filter hkv
  rw [hnull] at h
  exact Bool.noConfusion h

/-- Witness for C4 at the concrete params of the claim. -/
theorem buildUrl_drops_none_params_witness :
    strUpper "GET" = "GET"
    ∧ ([("suite_id", JVal.null), ("x", JVal.num 5)] : PDict).isEmpty = false
    ∧ (filterNonNull [("suite_id", JVal.null), ("x", JVal.num 5)]).isEmpty = false
    ∧ ((∀ kv ∈ filterNonNull [("suite_id", JVal.null), ("x", JVal.num 5)], kv.2 ≠ JVal.null)
      ∧ buildUrl "https://example.testrail.io/index.php?/api/v2/" "get_cases/1" "GET"
          (some [("suite_id", JVal.null), ("x", JVal.num 5)]) =
        "https://example.testrail.io/index.php?/api/v2/" ++ "get_cases/1" ++
          (if '?' ∈ ("https://example.testrail.io/index.php?/api/v2/" ++ "get_cases/1").data
            then "&" else "?") ++
          urlencodePy (filterNonNull [("suite_id", JVal.null), ("x", JVal.num 5)])
      ∧ containsStr (buildUrl (TestRailClient.init "https://example.testrail.io" "u" "k").base_url
          "get_cases/1" "GET" (some [("suite_id", JVal.null), ("x", JVal.num 5)])) "x=5"
      ∧ ¬ containsStr (buildUrl (TestRailClient.init "https://example.testrail.io" "u" "k").base_url
          "get_cases/1" "GET" (some [("suite_id", JVal.null), ("x", JVal.num 5)])) "suite_id") :=
  ⟨rfl, rfl, rfl,
    buildUrl_drops_none_params "https://example.testrail.io/index.php?/api/v2/" "get_cases/1"
      "GET" [("suite_id", JVal.null), ("x", JVal.num 5)] rfl rfl rfl⟩

/-! ## C10 / C5 / C6 / C9: the dispatch itself -/

/-- For a supported method the outcome always carries the built request. -/
theorem sendRequest_sentOf (c : TestRailClient) (method uri : String)
    (data params : Option PDict) (respond : SentRequest → HttpResponse)
    (hm : strUpper method = "GET" ∨ strUpper method = "POST" ∨
        strUpper method = "PUT" ∨ strUpper method = "DELETE") :
    (sendRequest c method uri data params respond).sentOf =
      some (sentRequestOf c method uri data params) := by
  unfold sendRequest
  rw [if_pos hm]
  unfold handleResponse
  split
  · rfl
  · split
    · split <;> rfl
    · rfl

/-- C10: when the params mapping is empty, or every entry is
`None`-valued, no separator or query block is appended: the request URL is
exactly the base concatenated with the URI suffix (and likewise when no
params mapping is supplied at all); in particular `get_cases` with
`suite_id = None` issues a GET to exactly `base ++ "get_cases/{project_id}"`. -/
theorem buildUrl_empty_params_exact (base_url uri method : String) (ps : PDict)
    (c : TestRailClient) (project_id : Int) (respond : SentRequest → HttpResponse)
    (hf : (filterNonNull ps).isEmpty = true) :
    buildUrl base_url uri method (some ps) = base_url ++ uri
    ∧ buildUrl base_url uri method none = base_url ++ uri
    ∧ (c.get_cases project_id none respond).sentOf =
        some { httpMethod := "GET",
               url := c.base_url ++ ("get_cases/" ++ toString project_id),
               body := none } := by
  refine ⟨?_, rfl, ?_⟩
  · have h1 : buildUrl base_url uri method (some ps) =
        if ps.isEmpty = false ∧ strUpper method = "GET" then
          if (filterNonNull ps).isEmpty = false then
            base_url ++ uri ++ (if '?' ∈ (base_url ++ uri).data then "&" else "?") ++
              urlencodePy (filterNonNull ps)
          else base_url ++ uri
        else base_url ++ uri := rfl
    rw [h1]
    split
    · rw [if_neg (by rw [hf]; exact fun h => Bool.noConfusion h)]
    · rfl
  · show ((sendRequest c "GET" ("get_cases/" ++ toString project_id) none
        (some []) respond)).sentOf = _
    rw [sendRequest_sentOf c "GET" ("get_cases/" ++ toString project_id) none (some []) respond
        (Or.inl rfl)]
    rfl

/-- Witness for C10 with an all-`None` params mapping. -/
theorem buildUrl_empty_params_exact_witness :
    (filterNonNull [("suite_id", JVal.null)]).isEmpty = true
    ∧ (buildUrl "https://example.testrail.io/index.php?/api/v2/" "get_cases/3" "GET"
          (some [("suite_id", JVal.null)]) =
        "https://example.testrail.io/index.php?/api/v2/" ++ "get_cases/3"
      ∧ buildUrl "https://example.testrail.io/index.php?/api/v2/" "get_cases/3" "GET" none =
        "https://example.testrail.io/index.php?/api/v2/" ++ "get_cases/3"
      ∧ ((TestRailClient.init "https://example.testrail.io" "u" "k").get_cases 3 none
          (fun _ => ⟨200, "", none⟩)).sentOf =
        some { httpMethod := "GET",
               url := (TestRailClient.init "https://example.testrail.io" "u" "k").base_url ++
                 ("get_cases/" ++ toString (3 : Int)),
               body := none }) :=
  ⟨rfl,
    buildUrl_empty_params_exact "https://example.testrail.io/index.php?/api/v2/" "get_cases/3"
      "GET" [("suite_id", JVal.null)] (TestRailClient.init "https://example.testrail.io" "u" "k")
      3 (fun _ => ⟨200, "", none⟩) rfl⟩

/-- C5: a method whose upper-casing is none of GET/POST/PUT/DELETE makes
`_send_request` raise `ValueError("Unsupported HTTP method: ...")`; the
outcome is the same for every transport and carries no sent request, so no
network call is made. -/
theorem sendRequest_unsupported_method (c : TestRailClient) (method uri : String)
    (data params : Option PDict)
    (hm : ¬(strUpper method = "GET" ∨ strUpper method = "POST" ∨
        strUpper method = "PUT" ∨ strUpper method = "DELETE")) :
    ∀ respond : SentRequest → HttpResponse,
      sendRequest c method uri data params respond =
        .valueError ("Unsupported HTTP method: " ++ method)
      ∧ (sendRequest c method uri data params respond).sentOf = none := by
  intro respond
  unfold sendRequest
  rw [if_neg hm]
  exact ⟨rfl, rfl⟩

/-- Witness for C5 at method `"PATCH"`. -/
theorem sendRequest_unsupported_method_witness :
    ¬(strUpper "PATCH" = "GET" ∨ strUpper "PATCH" = "POST" ∨
        strUpper "PATCH" = "PUT" ∨ strUpper "PATCH" = "DELETE")
    ∧ (sendRequest (TestRailClient.init "https://example.testrail.io" "u" "k") "PATCH"
          "get_projects" none none (fun _ => ⟨200, "", none⟩) =
        .valueError ("Unsupported HTTP method: " ++ "PATCH")
      ∧ (sendRequest (TestRailClient.init "https://example.testrail.io" "u" "k") "PATCH"
          "get_projects" none none (fun _ => ⟨200, "", none⟩)).sentOf = none) :=
  ⟨by decide,
    sendRequest_unsupported_method (TestRailClient.init "https://example.testrail.io" "u" "k")
      "PATCH" "get_projects" none none (by decide) (fun _ => ⟨200, "", none⟩)⟩

/-- C6: for a dispatch whose response status is < 300, the result is the
JSON-decoded response body, and a zero-length body yields the empty mapping
(no error and no decode attempt). -/
theorem sendRequest_success_result (c : TestRailClient) (method uri : String)
    (data params : Option PDict) (r : HttpResponse) (v : JVal)
    (hm : strUpper method = "GET" ∨ strUpper method = "POST" ∨
        strUpper method = "PUT" ∨ strUpper method = "DELETE")
    (hs : r.status_code < 300) :
    (r.content = "" →
      (sendRequest c method uri data params fun _ => r).resultOf = some (JVal.obj []))
    ∧ (r.content ≠ "" → r.jsonValue = some v →
      (sendRequest c method uri data params fun _ => r).resultOf = some v) := by
  have hkey : (sendRequest c method uri data params fun _ => r) =
      handleResponse (sentRequestOf c method uri data params) params r := by
    unfold sendRequest
    rw [if_pos hm]
  rw [hkey]
  unfold handleResponse
  rw [if_neg (by omega : ¬ 300 ≤ r.status_code)]
  constructor
  · intro hc
    rw [if_neg (not_not_intro hc)]
    rfl
  · intro hc hj
    rw [if_pos hc, hj]
    rfl

/-- Witness for C6: a 200 response with zero-length body yields the empty
mapping. -/
theorem sendRequest_success_result_witness :
    (strUpper "GET" = "GET" ∨ strUpper "GET" = "POST" ∨
        strUpper "GET" = "PUT" ∨ strUpper "GET" = "DELETE")
    ∧ (HttpResponse.mk 200 "" none).status_code < 300
    ∧ ((HttpResponse.mk 200 "" none).content = "" →
        (sendRequest (TestRailClient.init "https://example.testrail.io" "u" "k") "GET"
            "get_projects" none none fun _ => ⟨200, "", none⟩).resultOf = some (JVal.obj []))
    ∧ ((HttpResponse.mk 200 "" none).content ≠ "" →
        (HttpResponse.mk 200 "" none).jsonValue = some (JVal.obj [("id", JVal.num 1)]) →
        (sendRequest (TestRailClient.init "https://example.testrail.io" "u" "k") "GET"
            "get_projects" none none fun _ => ⟨200, "", none⟩).resultOf =
          some (JVal.obj [("id", JVal.num 1)])) := by
  refine ⟨Or.inl rfl, by decide, ?_⟩
  exact sendRequest_success_result (TestRailClient.init "https://example.testrail.io" "u" "k")
    "GET" "get_projects" none none ⟨200, "", none⟩ (JVal.obj [("id", JVal.num 1)])
    (Or.inl rfl) (by decide)

/-- C9: the dispatched request's body follows the method: GET and DELETE
carry none; POST and PUT carry the JSON serialization of `data` exactly when
`data` is a non-`None`, non-empty mapping, and none when `data` is `None` or
empty. -/
theorem sendRequest_body_rule (c : TestRailClient) (method uri : String)
    (data params : Option PDict) (respond : SentRequest → HttpResponse)
    (hm : strUpper method = "GET" ∨ strUpper method = "POST" ∨
        strUpper method = "PUT" ∨ strUpper method = "DELETE") :
    (sendRequest c method uri data params respond).sentOf =
      some (sentRequestOf c method uri data params)
    ∧ (sentRequestOf c method uri data params).body = buildBody method data
    ∧ ((strUpper method = "GET" ∨ strUpper method = "DELETE") →
        buildBody method data = none)
    ∧ ((strUpper method = "POST" ∨ strUpper method = "PUT") →
        (∀ d, data = some d → d.isEmpty = false →
          buildBody method data = some (jsonDumps (JVal.obj d)))
        ∧ ((data = none ∨ data = some []) → buildBody method data = none)) := by
  refine ⟨sendRequest_sentOf c method uri data params respond hm, rfl, ?_, ?_⟩
  · intro h
    unfold buildBody
    rcases h with h | h <;> rw [h] <;> rw [if_neg (by decide)]
  · intro h
    unfold buildBody
    rw [if_pos h]
    constructor
    · intro d hd hde
      rw [hd]
      show (if d.isEmpty = false then some (jsonDumps (JVal.obj d)) else none) =
        some (jsonDumps (JVal.obj d))
      rw [if_pos hde]
    · rintro (hd | hd) <;> rw [hd]
      rfl

/-- Witness for C9 on a POST with a nonempty body. -/
theorem sendRequest_body_rule_witness :
    (strUpper "POST" = "GET" ∨ strUpper "POST" = "POST" ∨
        strUpper "POST" = "PUT" ∨ strUpper "POST" = "DELETE")
    ∧ ((sendRequest (TestRailClient.init "https://example.testrail.io" "u" "k") "POST"
          "add_case/1" (some [("title", JVal.str "t")]) none (fun _ => ⟨200, "", none⟩)).sentOf =
        some (sentRequestOf (TestRailClient.init "https://example.testrail.io" "u" "k") "POST"
          "add_case/1" (some [("title", JVal.str "t")]) none)
      ∧ (sentRequestOf (TestRailClient.init "https://example.testrail.io" "u" "k") "POST"
          "add_case/1" (some [("title", JVal.str "t")]) none).body =
        buildBody "POST" (some [("title", JVal.str "t")])
      ∧ ((strUpper "POST" = "GET" ∨ strUpper "POST" = "DELETE") →
          buildBody "POST" (some [("title", JVal.str "t")]) = none)
      ∧ ((strUpper "POST" = "POST" ∨ strUpper "POST" = "PUT") →
          (∀ d, (some [("title", JVal.str "t")] : Option PDict) = some d → d.isEmpty = false →
            buildBody "POST" (some [("title", JVal.str "t")]) = some (jsonDumps (JVal.obj d)))
          ∧ (((some [("title", JVal.str "t")] : Option PDict) = none ∨
              (some [("title", JVal.str "t")] : Option PDict) = some []) →
            buildBody "POST" (some [("title", JVal.str "t")]) = none))) :=
  ⟨Or.inr (Or.inl rfl),
    sendRequest_body_rule (TestRailClient.init "https://example.testrail.io" "u" "k") "POST"
      "add_case/1" (some [("title", JVal.str "t")]) none (fun _ => ⟨200, "", none⟩)
      (Or.inr (Or.inl rfl))⟩

/-! ## C7: `get_sections` merging -/

theorem dictGet_map_replace_ne (d : PDict) (k0 k : String) (v : JVal) (hk : k ≠ k0) :
    dictGet k (d.map fun kv => if kv.1 == k0 then (k0, v) else kv) = dictGet k d := by
  induction d with
  | nil => rfl
  | cons a d ih =>
    obtain ⟨a1, a2⟩ := a
    by_cases ha : (a1 == k0) = true
    · have ha' : a1 = k0 := eq_of_beq ha
      rw [List.map_cons]
      show dictGet k ((if (a1, a2).1 == k0 then (k0, v) else (a1, a2)) :: _) = _
      rw [if_pos ha]
      show (if k = k0 then some v else dictGet k (d.map _)) = _
      rw [if_neg hk, ih]
      show _ = (if k = a1 then some a2 else dictGet k d)
      rw [if_neg (ha' ▸ hk)]
    · rw [List.map_cons]
      show dictGet k ((if (a1, a2).1 == k0 then (k0, v) else (a1, a2)) :: _) = _
      rw [if_neg ha]
      show (if k = a1 then some a2 else dictGet k (d.map _)) =
        (if k = a1 then some a2 else dictGet k d)
      by_cases hka : k = a1
      · rw [if_pos hka, if_pos hka]
      · rw [if_neg hka, if_neg hka, ih]

theorem dictGet_dictSet_self (d : PDict) (k0 : String) (v : JVal) :
    dictGet k0 (dictSet d k0 v) = some v := by
  unfold dictSet
  by_cases hex : (d.any fun kv => kv.1 == k0) = true
  · rw [if_pos hex]
    induction d with
    | nil => exact Bool.noConfusion hex
    | cons a d ih =>
      obtain ⟨a1, a2⟩ := a
      by_cases ha : (a1 == k0) = true
      · rw [List.map_cons]
        show dictGet k0 ((if (a1, a2).1 == k0 then (k0, v) else (a1, a2)) :: _) = _
        rw [if_pos ha]
        show (if k0 = k0 then some v else _) = _
        rw [if_pos rfl]
      · have hex' : (d.any fun kv => kv.1 == k0) = true := by
          have : ((a1, a2).1 == k0 || d.any fun kv => kv.1 == k0) = true := hex
          simpa [ha] using this
        rw [List.map_cons]
        show dictGet k0 ((if (a1, a2).1 == k0 then (k0, v) else (a1, a2)) :: _) = _
        rw [if_neg ha]
        show (if k0 = a1 then some a2 else dictGet k0 (d.map _)) = _
        have hne : k0 ≠ a1 := fun h => ha (by rw [h]; exact beq_self_eq_true a1)
        rw [if_neg hne, ih hex']
  · rw [if_neg hex]
    induction d with
    | nil =>
      show (if k0 = k0 then some v else none) = some v
      rw [if_pos rfl]
    | cons a d ih =>
      obtain ⟨a1, a2⟩ := a
      have ha : ((a1, a2).1 == k0) = false := by
        by_contra hc
        rw [Bool.not_eq_false] at hc
        exact hex (by simp [List.any_cons, hc])
      have hex' : ¬(d.any fun kv => kv.1 == k0) = true := by
        intro hc
        exact hex (by simp [List.any_cons, hc])
      show dictGet k0 (((a1, a2) :: d) ++ [(k0, v)]) = some v
      rw [List.cons_append]
      show (if k0 = a1 then some a2 else dictGet k0 (d ++ [(k0, v)])) = some v
      have hne : k0 ≠ a1 := fun h => by
        rw [h] at ha
        exact absurd (beq_self_eq_true a1) (by rw [ha]; exact fun hc => Bool.noConfusion hc)
      rw [if_neg hne]
      exact ih hex'

theorem dictGet_dictSet_ne (d : PDict) (k0 k : String) (v : JVal) (hk : k ≠ k0) :
    dictGet k (dictSet d k0 v) = dictGet k d := by
  unfold dictSet
  by_cases hex : (d.any fun kv => kv.1 == k0) = true
  · rw [if_pos hex]
    exact dictGet_map_replace_ne d k0 k v hk
  · rw [if_neg hex]
    induction d with
    | nil =>
      show (if k = k0 then some v else none) = none
      rw [if_neg hk]
    | cons a d ih =>
      obtain ⟨a1, a2⟩ := a
      have hex' : ¬(d.any fun kv => kv.1 == k0) = true := by
        intro hc
        exact hex (by simp [List.any_cons, hc])
      rw [List.cons_append]
      show (if k = a1 then some a2 else dictGet k (d ++ [(k0, v)])) =
        (if k = a1 then some a2 else dictGet k d)
      by_cases hka : k = a1
      · rw [if_pos hka, if_pos hka]
      · rw [if_neg hka, if_neg hka, ih hex']

/-- C7, counterexample: `get_sections` with `suite_id = 7` and a
caller-supplied `params = \x7b"suite_id": 5\x7d` dispatches query parameters
in which the caller's entry has been overwritten by 7 — the URL contains
`suite_id=7`, not `suite_id=5` — so the caller-provided entry is not
preserved. -/
theorem get_sections_overwrite_cex :
    get_sections_params (some 7) (some [("suite_id", JVal.num 5)]) =
      [("suite_id", JVal.num 7)]
    ∧ containsStr
      (((TestRailClient.init "https://example.testrail.io" "u" "k").get_sections 1 (some 7)
          (some [("suite_id", JVal.num 5)]) (fun _ => ⟨200, "", none⟩)).urlOf.getD "")
      "suite_id=7"
    ∧ ¬ containsStr
      (((TestRailClient.init "https://example.testrail.io" "u" "k").get_sections 1 (some 7)
          (some [("suite_id", JVal.num 5)]) (fun _ => ⟨200, "", none⟩)).urlOf.getD "")
      "suite_id=5" :=
  ⟨rfl, by decide, by decide⟩

/-- C7 (amended): `get_sections` with a non-`None` `suite_id` merges the
suite filter into the caller's params mapping, overwriting any
caller-supplied `"suite_id"` entry with the argument while leaving every
other key's value unchanged, and dispatches the merged mapping; with
`suite_id = None` the caller's mapping passes through unchanged. -/
theorem get_sections_merges_suite_id (c : TestRailClient) (project_id sid : Int)
    (opt_ps : Option PDict) (k : String) (respond : SentRequest → HttpResponse) :
    c.get_sections project_id (some sid) opt_ps respond =
      sendRequest c "GET" ("get_sections/" ++ toString project_id) none
        (some (get_sections_params (some sid) opt_ps)) respond
    ∧ dictGet k (get_sections_params (some sid) opt_ps) =
        (if k = "suite_id" then some (JVal.num sid) else dictGet k (opt_ps.getD []))
    ∧ get_sections_params none opt_ps = opt_ps.getD [] := by
  refine ⟨rfl, ?_, by cases opt_ps <;> rfl⟩
  by_cases hk : k = "suite_id"
  · rw [if_pos hk, hk]
    cases opt_ps <;> exact dictGet_dictSet_self _ "suite_id" (JVal.num sid)
  · rw [if_neg hk]
    cases opt_ps <;> exact dictGet_dictSet_ne _ "suite_id" k (JVal.num sid) hk

/-! ## C1: error surfacing -/

/-- C1, counterexample: two failures of the claim as stated: a 200
response whose nonempty body is not valid JSON makes `_send_request` raise
(a decode error) even though the status is < 300, so "an error is raised iff
status ≥ 300" is false; and when an empty params mapping is supplied the
error message does not contain the params mapping's rendering `\x7b\x7d`
(the code only adds the note for a *truthy* params). -/
theorem sendRequest_error_cex :
    (sendRequest (TestRailClient.init "https://example.testrail.io" "u" "k") "GET"
        "get_projects" none none (fun _ => ⟨200, "oops", none⟩)).isError = true
    ∧ (200 : Nat) < 300
    ∧ ¬ containsStr
        ((sendRequest (TestRailClient.init "https://example.testrail.io" "u" "k") "GET"
            "get_projects" none (some []) (fun _ => ⟨404, "nf", none⟩)).apiErrorMsg.getD "")
        (pyRepr (JVal.obj [])) :=
  ⟨rfl, by decide, by decide⟩

/-- C1 (amended): for a supported method, the status-≥-300 error
(`Exception("TestRail API returned HTTP ...")`) is raised iff the response
status is ≥ 300; some error is raised iff the status is ≥ 300 or the body is
nonempty and fails to JSON-decode (in which case the decode error
propagates). The status error's message contains the numeric status code,
the JSON-decoded error body (or the raw text when decoding fails), the fully
constructed URL, and — whenever a *non-empty* params mapping was supplied —
the original pre-filtering params mapping. -/
theorem sendRequest_error_spec (c : TestRailClient) (method uri : String)
    (data params : Option PDict) (r : HttpResponse)
    (hm : strUpper method = "GET" ∨ strUpper method = "POST" ∨
        strUpper method = "PUT" ∨ strUpper method = "DELETE") :
    ((∃ msg, (sendRequest c method uri data params fun _ => r).apiErrorMsg = some msg) ↔
      300 ≤ r.status_code)
    ∧ ((sendRequest c method uri data params fun _ => r).isError = true ↔
        (300 ≤ r.status_code ∨ (r.content ≠ "" ∧ r.jsonValue = none)))
    ∧ (∀ msg, (sendRequest c method uri data params fun _ => r).apiErrorMsg = some msg →
        containsStr msg (toString r.status_code)
        ∧ containsStr msg (errorBodyText r)
        ∧ containsStr msg (buildUrl c.base_url uri method params)
        ∧ ∀ ps, params = some ps → ps.isEmpty = false →
            containsStr msg (pyRepr (JVal.obj ps))) := by
  have hkey : (sendRequest c method uri data params fun _ => r) =
      handleResponse (sentRequestOf c method uri data params) params r := by
    unfold sendRequest
    rw [if_pos hm]
  rw [hkey]
  unfold handleResponse
  by_cases h3 : 300 ≤ r.status_code
  · rw [if_pos h3]
    refine ⟨⟨fun _ => h3, fun _ => ⟨_, rfl⟩⟩, ⟨fun _ => Or.inl h3, fun _ => rfl⟩, ?_⟩
    intro msg hmsg
    have hmsg' : msg = errorMessage r (sentRequestOf c method uri data params).url params :=
      (Option.some.inj hmsg).symm
    subst hmsg'
    unfold errorMessage
    refine ⟨?_, ?_, ?_, ?_⟩
    · exact containsStr_appendr _ (containsStr_appendr _ (containsStr_appendr _
        (containsStr_appendr _ (containsStr_appendr _ (containsStr_appendr _
          (containsStr_appendl _ (containsStr_refl _)))))))
    · exact containsStr_appendr _ (containsStr_appendr _ (containsStr_appendr _
        (containsStr_appendr _ (containsStr_appendl _ (containsStr_refl _)))))
    · exact containsStr_appendr _ (containsStr_appendr _
        (containsStr_appendl _ (containsStr_refl _)))
    · intro ps hps hpse
      subst hps
      have hnote : paramsNote (some ps) =
          " [Original params: " ++ pyRepr (JVal.obj ps) ++ "]" := by
        show (if ps.isEmpty = false
            then " [Original params: " ++ pyRepr (JVal.obj ps) ++ "]" else "") = _
        rw [if_pos hpse]
      rw [hnote]
      exact containsStr_appendl _ (containsStr_appendr _
        (containsStr_appendl _ (containsStr_refl _)))
  · rw [if_neg h3]
    by_cases hc : r.content ≠ ""
    · rw [if_pos hc]
      cases hj : r.jsonValue with
      | some v =>
        refine ⟨⟨?_, fun h => absurd h h3⟩, ⟨?_, ?_⟩, ?_⟩
        · rintro ⟨msg, hmsg⟩
          exact Option.noConfusion hmsg
        · intro h
          exact Bool.noConfusion h
        · rintro (h | ⟨_, h⟩)
          · exact absurd h h3
          · exact Option.noConfusion h
        · intro msg hmsg
          exact Option.noConfusion hmsg
      | none =>
        refine ⟨⟨?_, fun h => absurd h h3⟩, ⟨fun _ => Or.inr ⟨hc, rfl⟩, fun _ => rfl⟩, ?_⟩
        · rintro ⟨msg, hmsg⟩
          exact Option.noConfusion hmsg
        · intro msg hmsg
          exact Option.noConfusion hmsg
    · rw [if_neg hc]
      refine ⟨⟨?_, fun h => absurd h h3⟩, ⟨?_, ?_⟩, ?_⟩
      · rintro ⟨msg, hmsg⟩
        exact Option.noConfusion hmsg
      · intro h
        exact Bool.noConfusion h
      · rintro (h | ⟨h, _⟩)
        · exact absurd h h3
        · exact absurd h hc
      · intro msg hmsg
        exact Option.noConfusion hmsg

/-- Witness for C1 on the spec's example: a 404 with body
`\x7b"error": "not found"\x7d`. -/
theorem sendRequest_error_spec_witness :
    (strUpper "GET" = "GET" ∨ strUpper "GET" = "POST" ∨
        strUpper "GET" = "PUT" ∨ strUpper "GET" = "DELETE")
    ∧ (((∃ msg, (sendRequest (TestRailClient.init "https://example.testrail.io" "u" "k") "GET"
          "get_case/9" none (some [("a", JVal.num 1)])
          fun _ => ⟨404, "raw", some (.obj [("error", .str "not found")])⟩).apiErrorMsg =
            some msg) ↔
        300 ≤ (HttpResponse.mk 404 "raw" (some (.obj [("error", .str "not found")]))).status_code)
      ∧ (((sendRequest (TestRailClient.init "https://example.testrail.io" "u" "k") "GET"
          "get_case/9" none (some [("a", JVal.num 1)])
          fun _ => ⟨404, "raw", some (.obj [("error", .str "not found")])⟩).isError = true) ↔
        (300 ≤ (HttpResponse.mk 404 "raw" (some (.obj [("error", .str "not found")]))).status_code ∨
          ((HttpResponse.mk 404 "raw" (some (.obj [("error", .str "not found")]))).content ≠ "" ∧
            (HttpResponse.mk 404 "raw" (some (.obj [("error", .str "not found")]))).jsonValue = none)))
      ∧ (∀ msg, (sendRequest (TestRailClient.init "https://example.testrail.io" "u" "k") "GET"
          "get_case/9" none (some [("a", JVal.num 1)])
          fun _ => ⟨404, "raw", some (.obj [("error", .str "not found")])⟩).apiErrorMsg = some msg →
          containsStr msg (toString (HttpResponse.mk 404 "raw"
            (some (.obj [("error", .str "not found")]))).status_code)
          ∧ containsStr msg (errorBodyText ⟨404, "raw", some (.obj [("error", .str "not found")])⟩)
          ∧ containsStr msg (buildUrl (TestRailClient.init "https://example.testrail.io" "u" "k").base_url
              "get_case/9" "GET" (some [("a", JVal.num 1)]))
          ∧ ∀ ps, (some [("a", JVal.num 1)] : Option PDict) = some ps → ps.isEmpty = false →
              containsStr msg (pyRepr (JVal.obj ps)))) :=
  ⟨Or.inl rfl,
    sendRequest_error_spec (TestRailClient.init "https://example.testrail.io" "u" "k") "GET"
      "get_case/9" none (some [("a", JVal.num 1)])
      ⟨404, "raw", some (.obj [("error", .str "not found")])⟩ (Or.inl rfl)⟩

/-! ## C8: the Basic-Auth header round-trips -/

theorem charToSextet_sextetToChar : ∀ n, n < 64 → charToSextet (sextetToChar n) = some n := by
  decide

theorem sextetToChar_ne_pad : ∀ n, n < 64 → ¬(sextetToChar n = '=') := by
  decide

/-- Base64 decoding inverts encoding on byte lists. -/
theorem b64DecodeChunks_encode (l : List Nat) (hl : ∀ b ∈ l, b < 256) :
    b64DecodeChunks (b64EncodeChunks l) = some l := by
  induction l using b64EncodeChunks.induct with
  | case1 => rfl
  | case2 b0 =>
    have hb0 : b0 < 256 := hl b0 (by simp)
    have h1 : charToSextet (sextetToChar (b0 / 4)) = some (b0 / 4) :=
      charToSextet_sextetToChar _ (by omega)
    have h2 : charToSextet (sextetToChar (b0 % 4 * 16)) = some (b0 % 4 * 16) :=
      charToSextet_sextetToChar _ (by omega)
    simp only [b64EncodeChunks, b64DecodeChunks, h1, h2]
    rw [if_pos (by simp)]
    have e0 : b0 / 4 * 4 + b0 % 4 * 16 / 16 = b0 := by omega
    rw [e0]
  | case3 b0 b1 =>
    have hb0 : b0 < 256 := hl b0 (by simp)
    have hb1 : b1 < 256 := hl b1 (by simp)
    have h1 : charToSextet (sextetToChar (b0 / 4)) = some (b0 / 4) :=
      charToSextet_sextetToChar _ (by omega)
    have h2 : charToSextet (sextetToChar (b0 % 4 * 16 + b1 / 16)) =
        some (b0 % 4 * 16 + b1 / 16) :=
      charToSextet_sextetToChar _ (by omega)
    have h3 : charToSextet (sextetToChar (b1 % 16 * 4)) = some (b1 % 16 * 4) :=
      charToSextet_sextetToChar _ (by omega)
    simp only [b64EncodeChunks, b64DecodeChunks, h1, h2, h3]
    rw [if_neg (fun h => sextetToChar_ne_pad (b1 % 16 * 4) (by omega) h.1),
      if_pos (by simp)]
    have e0 : b0 / 4 * 4 + (b0 % 4 * 16 + b1 / 16) / 16 = b0 := by omega
    have e1 : (b0 % 4 * 16 + b1 / 16) % 16 * 16 + b1 % 16 * 4 / 4 = b1 := by omega
    rw [e0, e1]
  | case4 b0 b1 b2 rest ih =>
    have hb0 : b0 < 256 := hl b0 (by simp)
    have hb1 : b1 < 256 := hl b1 (by simp)
    have hb2 : b2 < 256 := hl b2 (by simp)
    have h1 : charToSextet (sextetToChar (b0 / 4)) = some (b0 / 4) :=
      charToSextet_sextetToChar _ (by omega)
    have h2 : charToSextet (sextetToChar (b0 % 4 * 16 + b1 / 16)) =
        some (b0 % 4 * 16 + b1 / 16) :=
      charToSextet_sextetToChar _ (by omega)
    have h3 : charToSextet (sextetToChar (b1 % 16 * 4 + b2 / 64)) =
        some (b1 % 16 * 4 + b2 / 64) :=
      charToSextet_sextetToChar _ (by omega)
    have h4 : charToSextet (sextetToChar (b2 % 64)) = some (b2 % 64) :=
      charToSextet_sextetToChar _ (by omega)
    have hrest : ∀ b ∈ rest, b < 256 := fun b hb => hl b (by simp [hb])
    simp only [b64EncodeChunks, b64DecodeChunks, h1, h2, h3, h4, ih hrest]
    rw [if_neg (fun h => sextetToChar_ne_pad (b1 % 16 * 4 + b2 / 64) (by omega) h.1),
      if_neg (fun h => sextetToChar_ne_pad (b2 % 64) (by omega) h.1)]
    have e0 : b0 / 4 * 4 + (b0 % 4 * 16 + b1 / 16) / 16 = b0 := by omega
    have e1 : (b0 % 4 * 16 + b1 / 16) % 16 * 16 + (b1 % 16 * 4 + b2 / 64) / 4 = b1 := by
      omega
    have e2 : (b1 % 16 * 4 + b2 / 64) % 4 * 64 + b2 % 64 = b2 := by omega
    rw [e0, e1, e2]

/-- Every character's code point is below `0x110000`. -/
theorem char_toNat_lt (c : Char) : c.toNat < 1114112 := by
  rcases c.valid with h | h
  · exact Nat.lt_trans h (by norm_num)
  · exact h.2

/-- UTF-8 encoding produces genuine bytes. -/
theorem utf8Bytes_lt (c : Char) : ∀ b ∈ utf8Bytes c, b < 256 := by
  have hv := char_toNat_lt c
  intro b hb
  unfold utf8Bytes at hb
  simp only at hb
  split at hb
  · simp only [List.mem_singleton] at hb
    omega
  · split at hb
    · simp only [List.mem_cons, List.not_mem_nil, or_false] at hb
      rcases hb with hb | hb <;> omega
    · split at hb
      · simp only [List.mem_cons, List.not_mem_nil, or_false] at hb
        rcases hb with hb | hb | hb <;> omega
      · simp only [List.mem_cons, List.not_mem_nil, or_false] at hb
        rcases hb with hb | hb | hb | hb <;> omega

theorem utf8Encode_lt (s : String) : ∀ b ∈ utf8Encode s, b < 256 := by
  intro b hb
  rw [utf8Encode, List.mem_flatMap] at hb
  obtain ⟨c, _, hc⟩ := hb
  exact utf8Bytes_lt c b hc

theorem utf8Bytes_cons (c : Char) : ∃ b bs, utf8Bytes c = b :: bs := by
  unfold utf8Bytes
  simp only
  split
  · exact ⟨_, _, rfl⟩
  · split
    · exact ⟨_, _, rfl⟩
    · split
      · exact ⟨_, _, rfl⟩
      · exact ⟨_, _, rfl⟩

/-- Decoding steps over one encoded character. -/
theorem utf8DecodeStep_bytes (c : Char) (L : List Nat) :
    utf8DecodeStep (utf8Bytes c ++ L) = some (c, L) := by
  have hval : c.toNat < 0xD800 ∨ (0xE000 ≤ c.toNat ∧ c.toNat < 0x110000) := c.valid
  by_cases ha : c.toNat < 0x80
  · have hbytes : utf8Bytes c = [c.toNat] := by
      unfold utf8Bytes
      simp only
      rw [if_pos ha]
    rw [hbytes, List.singleton_append]
    simp only [utf8DecodeStep]
    rw [if_pos ha, Char.ofNat_toNat]
  · by_cases hb : c.toNat < 0x800
    · have hbytes : utf8Bytes c = [0xC0 + c.toNat / 64, 0x80 + c.toNat % 64] := by
        unfold utf8Bytes
        simp only
        rw [if_neg ha, if_pos hb]
      rw [hbytes]
      show utf8DecodeStep ((0xC0 + c.toNat / 64) :: (0x80 + c.toNat % 64) :: L) = _
      simp only [utf8DecodeStep]
      rw [if_neg (by omega), if_neg (by omega), if_pos (by omega)]
      simp only [utf8Step2]
      rw [if_pos ⟨⟨by omega, by omega⟩, by omega⟩]
      have en : (0xC0 + c.toNat / 64 - 0xC0) * 64 + (0x80 + c.toNat % 64 - 0x80) =
          c.toNat := by omega
      rw [en, Char.ofNat_toNat]
    · by_cases hc : c.toNat < 0x10000
      · have hbytes : utf8Bytes c =
            [0xE0 + c.toNat / 4096, 0x80 + c.toNat / 64 % 64, 0x80 + c.toNat % 64] := by
          unfold utf8Bytes
          simp only
          rw [if_neg ha, if_neg hb, if_pos hc]
        rw [hbytes]
        show utf8DecodeStep ((0xE0 + c.toNat / 4096) :: (0x80 + c.toNat / 64 % 64) ::
          (0x80 + c.toNat % 64) :: L) = _
        simp only [utf8DecodeStep]
        rw [if_neg (by omega), if_neg (by omega), if_neg (by omega), if_pos (by omega)]
        simp only [utf8Step3]
        rw [if_pos ⟨⟨by omega, by omega⟩, ⟨by omega, by omega⟩, by omega, by omega⟩]
        have en : (0xE0 + c.toNat / 4096 - 0xE0) * 4096 +
            (0x80 + c.toNat / 64 % 64 - 0x80) * 64 + (0x80 + c.toNat % 64 - 0x80) =
            c.toNat := by omega
        rw [en, Char.ofNat_toNat]
      · have hlt : c.toNat < 0x110000 := char_toNat_lt c
        have hbytes : utf8Bytes c =
            [0xF0 + c.toNat / 262144, 0x80 + c.toNat / 4096 % 64,
              0x80 + c.toNat / 64 % 64, 0x80 + c.toNat % 64] := by
          unfold utf8Bytes
          simp only
          rw [if_neg ha, if_neg hb, if_neg hc]
        rw [hbytes]
        show utf8DecodeStep ((0xF0 + c.toNat / 262144) :: (0x80 + c.toNat / 4096 % 64) ::
          (0x80 + c.toNat / 64 % 64) :: (0x80 + c.toNat % 64) :: L) = _
        simp only [utf8DecodeStep]
        rw [if_neg (by omega), if_neg (by omega), if_neg (by omega), if_neg (by omega),
          if_pos (by omega)]
        simp only [utf8Step4]
        rw [if_pos ⟨⟨by omega, by omega⟩, ⟨by omega, by omega⟩, ⟨by omega, by omega⟩,
          by omega, by omega⟩]
        have en : (0xF0 + c.toNat / 262144 - 0xF0) * 262144 +
            (0x80 + c.toNat / 4096 % 64 - 0x80) * 4096 +
            (0x80 + c.toNat / 64 % 64 - 0x80) * 64 + (0x80 + c.toNat % 64 - 0x80) =
            c.toNat := by omega
        rw [en, Char.ofNat_toNat]

theorem utf8DecodeAux_encode (cs : List Char) : ∀ fuel, cs.length ≤ fuel →
    utf8DecodeAux fuel (cs.flatMap utf8Bytes) = some cs := by
  induction cs with
  | nil =>
    intro fuel _
    cases fuel <;> rfl
  | cons c cs ih =>
    intro fuel hf
    cases fuel with
    | zero => exact absurd hf (by simp)
    | succ f =>
      rw [List.flatMap_cons]
      obtain ⟨b, bs, hb⟩ := utf8Bytes_cons c
      rw [hb, List.cons_append]
      simp only [utf8DecodeAux]
      rw [← List.cons_append, ← hb, utf8DecodeStep_bytes]
      show Option.map (fun x => c :: x) (utf8DecodeAux f (cs.flatMap utf8Bytes)) =
        some (c :: cs)
      rw [ih f (by simpa using hf)]
      rfl

theorem utf8Bytes_length_pos (c : Char) : 1 ≤ (utf8Bytes c).length := by
  obtain ⟨b, bs, hb⟩ := utf8Bytes_cons c
  rw [hb]
  simp

theorem length_le_flatMap_utf8Bytes (cs : List Char) :
    cs.length ≤ (cs.flatMap utf8Bytes).length := by
  induction cs with
  | nil => simp
  | cons c cs ih =>
    rw [List.flatMap_cons, List.length_append, List.length_cons]
    have := utf8Bytes_length_pos c
    omega

theorem utf8DecodeList_encode (cs : List Char) :
    utf8DecodeList (cs.flatMap utf8Bytes) = some cs :=
  utf8DecodeAux_encode cs _ (length_le_flatMap_utf8Bytes cs)

/-- UTF-8 decoding inverts encoding on every string. -/
theorem utf8Decode_encode (s : String) : utf8Decode (utf8Encode s) = some s := by
  unfold utf8Decode utf8Encode
  rw [utf8DecodeList_encode]
  rfl

/-- C8: the Authorization header value set at construction is a pure
function of username and API key: `"Basic "` followed by the Base64 encoding
of the UTF-8 bytes of `"username:api_key"`; Base64-decoding the encoded part
and then UTF-8-decoding recovers exactly `"username:api_key"`. Concretely,
`("alice", "k1")` yields `"Basic YWxpY2U6azE="`, which decodes back to
`"alice:k1"`. -/
theorem init_authHeader_roundtrip (b username api_key : String) :
    (TestRailClient.init b username api_key).authHeader =
      "Basic " ++ String.mk (b64EncodeChunks (utf8Encode (username ++ ":" ++ api_key)))
    ∧ (b64DecodeChunks (b64EncodeChunks (utf8Encode (username ++ ":" ++ api_key)))).bind
        utf8Decode = some (username ++ ":" ++ api_key)
    ∧ (TestRailClient.init "https://example.testrail.io" "alice" "k1").authHeader =
        "Basic YWxpY2U6azE=" := by
  refine ⟨rfl, ?_, rfl⟩
  rw [b64DecodeChunks_encode _ (utf8Encode_lt _), Option.some_bind, utf8Decode_encode]

end TestRail
